import Mathlib

/-!
Shallow embedding of the ninghai_mj mahjong engine.

The embedded code:
* `Card.js` — class `Card` (tile kinds, identity strings, JSON round trip,
  sequence formation) and class `CardDeck` (the 144 tile population, draw).
* `models/Game.js` — class `Game`: dealing, the flower sweeps, discarding,
  claim eligibility (`canHu`/`canPeng`/`canGang`/`canChi`), turn advance
  (`nextPlayer`), the winning hand stub (`isWinningHand`), and the
  per-seat snapshot (`getGameState`).
* `controllers/gameController.js` — the chi/peng/gang execution helpers and
  the chi acceptance check (`playerChi`), plus the per-viewer snapshot
  augmentation (`getGameState` adds `myCards`/`myPosition`).

Representation choices, noted where they matter:
* Tile ids: the JS `Card` stores an `id` field that is always
  `generateId()` of `(type, value)` (set once in the constructor and never
  mutated), so a card is modelled by `(type, value)` and the id by the
  derived function `Card.generateId`.  All JS containers hold id strings;
  because `generateId` is injective on the 144-card population (proved in
  the C10 theorem) we let the containers hold `Card` values directly, with
  the same equality as JS string equality of ids.
* The deck: the JS array draws from the tail with `pop()`; our deck list
  holds the cards in draw order (head = next card drawn), i.e. the reverse
  of the JS array.  Draw counts and drawn cards are unchanged by this.
* Errors: JS `throw` happens before any mutation in `playerDiscard`, and a
  thrown error skips the controller's `save()`, so the persisted state is
  the input state; we model this with `Except` and an endpoint wrapper that
  returns the unchanged state on the error path.
* `gameHistory` entries carry a wall-clock `timestamp` in JS; real time is
  outside the embedding, so history entries keep only player/action/cards.
* Unbounded loops (`while (hasFlowers)`, the backtracking of the
  spec-modelled decomposition) are written with an explicit fuel argument;
  sufficiency of the fuel used is proved (`sweepLoop_stable`).
-/

namespace NinghaiMJ

set_option maxRecDepth 10000

/-- Tile categories (CARD_TYPES in Card.js): the three numeric suits, the
honor set and the flower set. -/
inductive CardType where
  | wan
  | tong
  | suo
  | zi
  | hua
deriving DecidableEq

/-- String tag of a card type as it appears in id strings such as "wan_5". -/
def CardType.str : CardType → String
  | .wan => "wan"
  | .tong => "tong"
  | .suo => "suo"
  | .zi => "zi"
  | .hua => "hua"

/-- Mahjong tile (class `Card` in Card.js): a category and a rank. -/
structure Card where
  type : CardType
  value : Nat
deriving DecidableEq

/-- Card.generateId: the id string `type_value` of a tile. -/
def Card.generateId (c : Card) : String :=
  c.type.str ++ "_" ++ toString c.value

/-- Card.isFlower. -/
def Card.isFlower (c : Card) : Bool :=
  decide (c.type = CardType.hua)

/-- Card.isHonor. -/
def Card.isHonor (c : Card) : Bool :=
  decide (c.type = CardType.zi)

/-- Card.isNumber: one of the three numeric suits. -/
def Card.isNumber (c : Card) : Bool :=
  decide (c.type = CardType.wan) || decide (c.type = CardType.tong) ||
    decide (c.type = CardType.suo)

/-- Ascending order of three naturals (the `values.sort((a, b) => a - b)`
step of `canFormSequence`). -/
def sort3 (a b c : Nat) : Nat × Nat × Nat :=
  if a ≤ b then
    if b ≤ c then (a, b, c)
    else if a ≤ c then (a, c, b)
    else (c, a, b)
  else
    if a ≤ c then (b, a, c)
    else if b ≤ c then (b, c, a)
    else (c, b, a)

/-- Card.canFormSequence: the three cards (receiver plus two others) are all
numeric, share one suit, and their sorted values are consecutive.  The JS
early returns are the short-circuit of `&&`. -/
def Card.canFormSequence (c card2 card3 : Card) : Bool :=
  c.isNumber && card2.isNumber && card3.isNumber &&
  decide (c.type = card2.type) && decide (c.type = card3.type) &&
  (let s := sort3 c.value card2.value card3.value
   decide (s.2.1 = s.1 + 1) && decide (s.2.2 = s.2.1 + 1))

/-- Card.getDisplayName (JS falls back to the empty string when the rank is
out of the name table). -/
def Card.getDisplayName (c : Card) : String :=
  match c.type with
  | .wan => toString c.value ++ "万"
  | .tong => toString c.value ++ "筒"
  | .suo => toString c.value ++ "索"
  | .zi => ["", "东", "南", "西", "北", "中", "发", "白"].getD c.value ""
  | .hua => ["", "梅", "兰", "菊", "竹", "春", "夏", "秋", "冬"].getD c.value ""

/-- The JSON object produced by Card.toJSON. -/
structure CardJSON where
  id : String
  type : CardType
  value : Nat
  displayName : String
deriving DecidableEq

/-- Card.toJSON. -/
def Card.toJSON (c : Card) : CardJSON :=
  { id := c.generateId
    type := c.type
    value := c.value
    displayName := c.getDisplayName }

/-- Card.fromJSON: `new Card(json.type, json.value)`. -/
def Card.fromJSON (json : CardJSON) : Card :=
  { type := json.type, value := json.value }

/-- Parse of a type tag (JS keeps the raw string; an unknown tag makes a
card no game function recognizes, modelled as `none`). -/
def parseCardType : String → Option CardType
  | "wan" => some .wan
  | "tong" => some .tong
  | "suo" => some .suo
  | "zi" => some .zi
  | "hua" => some .hua
  | _ => none

/-- Splitting on the underscore, character by character (the semantics of
the JS `cardId.split('_')` on these id strings). -/
def splitOnUnderscore : List Char → List (List Char)
  | [] => [[]]
  | c :: rest =>
    let r := splitOnUnderscore rest
    if c = '_' then [] :: r
    else
      match r with
      | [] => [[c]]
      | seg :: segs => (c :: seg) :: segs

/-- Decimal digit accumulation for `parseInt`. -/
def digitsToNatAux : List Char → Nat → Option Nat
  | [], acc => some acc
  | c :: rest, acc =>
    if c.isDigit then digitsToNatAux rest (acc * 10 + (c.toNat - 48))
    else none

/-- The JS `parseInt` on an all-digit segment: `none` (NaN) when the
segment is empty or starts with a non-digit. -/
def digitsToNat : List Char → Option Nat
  | [] => none
  | c :: rest => if c.isDigit then digitsToNatAux (c :: rest) 0 else none

/-- Game.getCardById: split the id on the underscore and rebuild the card
(`new Card(type, parseInt(value))`).  `none` models the malformed card JS
would produce when the tag or the number does not parse. -/
def getCardById (cardId : String) : Option Card :=
  match splitOnUnderscore cardId.data with
  | t :: v :: _ =>
    match parseCardType (String.mk t), digitsToNat v with
    | some ty, some n => some { type := ty, value := n }
    | _, _ => none
  | _ => none

/-- The 144-card population built by the CardDeck constructor: four copies
of each suit rank 1–9, four copies of each of the seven honors, one copy of
each of the eight flowers, in construction order. -/
def initialDeck : List Card :=
  (([CardType.wan, CardType.tong, CardType.suo].map (fun t =>
      ((List.range' 1 9).map (fun v =>
        List.replicate 4 ({ type := t, value := v } : Card))).flatten)).flatten) ++
  (((List.range' 1 7).map (fun v =>
      List.replicate 4 ({ type := CardType.zi, value := v } : Card))).flatten) ++
  ((List.range' 1 8).map (fun v => ({ type := CardType.hua, value := v } : Card)))

/-- CardDeck.drawCard: remove and return the next card (none on an empty
deck, where JS yields `undefined`).  Our deck list is in draw order. -/
def drawCard : List Card → Option Card × List Card
  | [] => (none, [])
  | c :: rest => (some c, rest)

/-- CardDeck.drawCards: draw up to `count` cards, stopping early when the
deck runs out; returns the drawn cards in draw order and the rest. -/
def drawCards (count : Nat) (deck : List Card) : List Card × List Card :=
  (deck.take count, deck.drop count)

/-- PLAYER_ACTIONS. -/
inductive Action where
  | discard
  | chi
  | peng
  | gang
  | hu
  | pass
deriving DecidableEq

/-- GAME_STATES. -/
inductive GState where
  | waiting
  | starting
  | dealing
  | playing
  | finished
  | paused
deriving DecidableEq

/-- An exposed meld (the `exposedCards` entries): kind tag ("chi", "peng"
or "gang"), the cards shown, and the seat the claimed tile came from (JS
field name: `from`). -/
structure Meld where
  type : String
  cards : List Card
  fromPlayer : Nat
deriving DecidableEq

/-- One seat's record in `game.data.players`.  `isReady` is never read by
the modelled operations and is omitted. -/
structure Player where
  userId : Nat
  position : Nat
  feng : String
  handCards : List Card
  discardedCards : List Card
  exposedCards : List Meld
  flowerCards : List Card
  availableActions : List Action
  score : Nat
deriving DecidableEq

instance : Inhabited Player :=
  ⟨{ userId := 0, position := 0, feng := "", handCards := [],
     discardedCards := [], exposedCards := [], flowerCards := [],
     availableActions := [], score := 0 }⟩

/-- One `gameHistory` entry (the wall-clock timestamp is outside the
embedding). -/
structure HistoryEntry where
  player : Nat
  action : Action
  cards : List Card
deriving DecidableEq

/-- The mutable game document (`game.data` together with the live
`game.deck`).  `deck` is the list of undrawn cards in draw order. -/
structure GameState where
  roomId : String
  state : GState
  mode : String
  currentPlayer : Nat
  dealer : Nat
  round : Nat
  players : List Player
  deck : List Card
  lastDiscardedCard : Option Card
  lastAction : Option Action
  gameHistory : List HistoryEntry
  winner : Option Nat
deriving DecidableEq

/-- Number of tiles a seat holds across hand, discard pile, exposed melds
and flowers. -/
def playerTiles (p : Player) : Nat :=
  p.handCards.length + p.discardedCards.length + p.flowerCards.length +
    (p.exposedCards.map (fun m => m.cards.length)).sum

/-- Total tile count of a state: undrawn deck plus every seat's holdings.
The conservation claim says this stays 144. -/
def totalTiles (st : GameState) : Nat :=
  st.deck.length + (st.players.map playerTiles).sum

/-- Number of flower cards in a list. -/
def countFlowers (l : List Card) : Nat :=
  l.countP (fun c => c.isFlower)

/-- Flowers still outside the flower piles: in the deck or in a concealed
hand.  Each productive pass of the dealing sweep strictly decreases this,
which bounds the `while (hasFlowers)` loop. -/
def flowerMeasure (st : GameState) : Nat :=
  countFlowers st.deck + (st.players.map (fun p => countFlowers p.handCards)).sum

/-- Game.isWinningHand: the length precheck is implemented, the actual
decomposition is the source's TODO stub, so every input yields false
("临时返回false，需要完整实现"). -/
def isWinningHand (handCards : List Card) (exposedCards : List Meld) : Bool :=
  let totalCards := handCards.length + (exposedCards.map (fun g => g.cards.length)).sum
  if totalCards ≠ 14 then false
  else false

/-- Game.canHu: test the concealed hand, optionally extended by the
tendered card, with `isWinningHand`. -/
def canHu (st : GameState) (playerPosition : Nat) (cardId : Option Card) : Bool :=
  let player := st.players.getD playerPosition default
  let testCards :=
    match cardId with
    | some c => player.handCards ++ [c]
    | none => player.handCards
  isWinningHand testCards player.exposedCards

/-- Count of cards equal to `c` in a list (the JS `filter(equals).length`
idiom). -/
def countCard (c : Card) (l : List Card) : Nat :=
  l.countP (fun x => decide (x = c))

/-- Game.canPeng: the hand holds at least two copies of the discard. -/
def canPeng (st : GameState) (playerPosition : Nat) (cardId : Card) : Bool :=
  decide (2 ≤ countCard cardId (st.players.getD playerPosition default).handCards)

/-- Game.canGang: the hand holds at least three copies of the discard. -/
def canGang (st : GameState) (playerPosition : Nat) (cardId : Card) : Bool :=
  decide (3 ≤ countCard cardId (st.players.getD playerPosition default).handCards)

/-- The double loop of Game.canChi: some pair of hand cards at positions
i < j forms a sequence with the discard. -/
def anyChiPair (card : Card) : List Card → Bool
  | [] => false
  | c1 :: rest => rest.any (fun c2 => card.canFormSequence c1 c2) || anyChiPair card rest

/-- Game.canChi: only a numeric discard, and some pair of the seat's hand
cards completes a run with it.  Note the seat parameter is unused beyond
selecting the hand: `canChi` itself has no next-seat restriction. -/
def canChi (st : GameState) (playerPosition : Nat) (cardId : Card) : Bool :=
  if !cardId.isNumber then false
  else anyChiPair cardId (st.players.getD playerPosition default).handCards

/-- The action list Game.checkPlayerActions builds for one seat: hu, gang,
peng in that order, then chi only for the seat after the discarder. -/
def eligibleActions (st : GameState) (cardId : Card) (idx : Nat) : List Action :=
  (if canHu st idx (some cardId) then [Action.hu] else []) ++
  (if canGang st idx cardId then [Action.gang] else []) ++
  (if canPeng st idx cardId then [Action.peng] else []) ++
  (if idx = (st.currentPlayer + 1) % 4 && canChi st idx cardId then [Action.chi]
   else [])

/-- Index-aware map over the player list (the JS
`players.forEach((player, index) => ...)`). -/
def mapWithIndex (f : Nat → Player → Player) : Nat → List Player → List Player
  | _, [] => []
  | i, p :: ps => f i p :: mapWithIndex f (i + 1) ps

/-- Game.checkPlayerActions: record each non-discarder's eligible claims in
its `availableActions` field (only when nonempty; no cross-seat priority is
applied and nothing else of the state changes). -/
def checkPlayerActions (st : GameState) (cardId : Card) : GameState :=
  { st with
    players := mapWithIndex (fun i p =>
      if i = st.currentPlayer then p
      else
        let actions := eligibleActions st cardId i
        if actions.isEmpty then p
        else { p with availableActions := actions }) 0 st.players }

/-- Game.nextPlayer: advance the seat, and when the deck is nonempty draw
one card; a drawn flower is pushed to the flower pile (the JS push/pop pair
leaves the hand unchanged) and one replacement is drawn when available —
the replacement itself is not rechecked for being a flower. -/
def nextPlayer (st : GameState) : GameState :=
  let cur := (st.currentPlayer + 1) % 4
  match st.deck with
  | [] => { st with currentPlayer := cur }
  | newCard :: deckRest =>
    let player := st.players.getD cur default
    if newCard.isFlower then
      let player1 := { player with flowerCards := player.flowerCards ++ [newCard] }
      match deckRest with
      | [] =>
        { st with currentPlayer := cur, deck := [],
                  players := st.players.set cur player1 }
      | supplementCard :: deckRest2 =>
        { st with currentPlayer := cur, deck := deckRest2,
                  players := st.players.set cur
                    { player1 with handCards := player1.handCards ++ [supplementCard] } }
    else
      { st with currentPlayer := cur, deck := deckRest,
                players := st.players.set cur
                  { player with handCards := player.handCards ++ [newCard] } }

/-- Removal of the first copy of a card (the JS `indexOf`/`splice(i, 1)`
pair; a no-op when the card is absent). -/
def removeFirst (card : Card) : List Card → List Card
  | [] => []
  | c :: rest => if c = card then rest else c :: removeFirst card rest

/-- Game.playerDiscard: the three validity checks (game playing, caller's
turn, tile owned) happen before any mutation; then the tile moves from the
hand to the seat's discard pile, `lastDiscardedCard`/`lastAction`/history
are updated, claims are recorded by `checkPlayerActions`, and `nextPlayer`
runs unconditionally — even when a seat just became claim-eligible. -/
def playerDiscard (st : GameState) (playerPosition : Nat) (cardId : Card) :
    Except String GameState :=
  if st.state ≠ GState.playing then Except.error "游戏未在进行中"
  else if st.currentPlayer ≠ playerPosition then Except.error "不是该玩家的回合"
  else
    let player := st.players.getD playerPosition default
    if cardId ∉ player.handCards then Except.error "玩家没有这张牌"
    else
      let player1 := { player with
        handCards := removeFirst cardId player.handCards
        discardedCards := player.discardedCards ++ [cardId] }
      let st1 := { st with
        players := st.players.set playerPosition player1
        lastDiscardedCard := some cardId
        lastAction := some Action.discard
        gameHistory := st.gameHistory ++
          [{ player := playerPosition, action := Action.discard, cards := [cardId] }] }
      let st2 := checkPlayerActions st1 cardId
      Except.ok (nextPlayer st2)

/-- The discard endpoint as the controller runs it: a thrown error skips
`save()`, so the persisted state is the input state and the message is
reported to the caller. -/
def playerDiscardEndpoint (st : GameState) (playerPosition : Nat) (cardId : Card) :
    GameState × Option String :=
  match playerDiscard st playerPosition cardId with
  | Except.ok st' => (st', none)
  | Except.error e => (st, some e)

/-- One seat's step of Game.handleFlowerCards: partition the hand into
flowers and the rest (order preserved), and when flowers were found move
them to the flower pile and draw that many replacements onto the hand.
The boolean is this seat's contribution to `hasFlowers`. -/
def sweepPlayer (st : GameState) (idx : Nat) : GameState × Bool :=
  let player := st.players.getD idx default
  let flowerCards := player.handCards.filter (fun c => c.isFlower)
  let remainingCards := player.handCards.filter (fun c => !c.isFlower)
  if 0 < flowerCards.length then
    let drawn := drawCards flowerCards.length st.deck
    let player1 := { player with
      flowerCards := player.flowerCards ++ flowerCards
      handCards := remainingCards ++ drawn.1 }
    ({ st with players := st.players.set idx player1, deck := drawn.2 }, true)
  else
    (st, false)

/-- One pass of the `for (let i = 0; i < 4; i++)` loop of
Game.handleFlowerCards, visiting seats `(dealer + i) % 4` in order.
`sweepPlayer` never touches `dealer`, so reading it from the incoming state
matches the JS re-read of `this.data.dealer` each iteration. -/
def sweepPass (st : GameState) : GameState × Bool :=
  let r1 := sweepPlayer st ((st.dealer + 0) % 4)
  let r2 := sweepPlayer r1.1 ((st.dealer + 1) % 4)
  let r3 := sweepPlayer r2.1 ((st.dealer + 2) % 4)
  let r4 := sweepPlayer r3.1 ((st.dealer + 3) % 4)
  (r4.1, r1.2 || r2.2 || r3.2 || r4.2)

/-- The `while (hasFlowers)` loop with explicit fuel; a pass that found no
flowers ends the loop.  `flowerMeasure st + 1` fuel is proved sufficient
(`sweepLoop_stable`), making this the JS loop. -/
def sweepLoop : Nat → GameState → GameState
  | 0, st => st
  | fuel + 1, st =>
    let r := sweepPass st
    if r.2 then sweepLoop fuel r.1 else r.1

/-- Game.handleFlowerCards: repeat passes until one finds no flowers. -/
def handleFlowerCards (st : GameState) : GameState :=
  sweepLoop (flowerMeasure st + 1) st

/-- The dealing loop of Game.dealCards: each seat in list order receives 13
cards (14 for the dealer), replacing its hand. -/
def dealCardsLoop (st : GameState) : GameState :=
  (List.range st.players.length).foldl (fun s index =>
    let cardCount := if index = s.dealer then 14 else 13
    let drawn := drawCards cardCount s.deck
    let p := s.players.getD index default
    { s with players := s.players.set index { p with handCards := drawn.1 }
             deck := drawn.2 }) st

/-- Game.dealCards: state to dealing, deal, run the flower sweep, state to
playing. -/
def dealCards (st : GameState) : GameState :=
  let st1 := { st with state := GState.dealing }
  let st2 := dealCardsLoop st1
  let st3 := handleFlowerCards st2
  { st3 with state := GState.playing }

/-- Removal of up to `n` copies of a card, scanning from the front. -/
def removeMatching : List Card → Card → Nat → List Card
  | l, _, 0 => l
  | [], _, _ => []
  | c :: rest, card, n + 1 =>
    if c = card then removeMatching rest card n
    else c :: removeMatching rest card (n + 1)

/-- Removal of up to `n` copies of a card scanning from the back, as the
controller's `for (let i = length - 1; i >= 0 && removed < n; i--)` loops
do. -/
def removeMatchingFromEnd (hand : List Card) (card : Card) (n : Nat) : List Card :=
  (removeMatching hand.reverse card n).reverse

/-- GameController.executeChiAction: remove the given cards other than the
discard from the claimant's hand (each first occurrence, when present),
expose the given cards as a chi meld sourced from `currentPlayer`, and make
the claimant current.  Note the claimed tile is not removed from the
discarder's discard pile. -/
def executeChiAction (st : GameState) (playerPosition : Nat) (cardIds : List Card) :
    GameState :=
  let player := st.players.getD playerPosition default
  let newHand := cardIds.foldl (fun hand cardId =>
    if st.lastDiscardedCard = some cardId then hand
    else removeFirst cardId hand) player.handCards
  let player1 := { player with
    handCards := newHand
    exposedCards := player.exposedCards ++
      [{ type := "chi", cards := cardIds, fromPlayer := st.currentPlayer }] }
  { st with players := st.players.set playerPosition player1
            currentPlayer := playerPosition }

/-- GameController.executePengAction: remove two copies of the discard from
the claimant's hand (scanning from the back), expose a three-copy peng
meld, and make the claimant current.  The claimed tile again stays in the
discarder's discard pile. -/
def executePengAction (st : GameState) (playerPosition : Nat) (cardId : Card) :
    GameState :=
  let player := st.players.getD playerPosition default
  let player1 := { player with
    handCards := removeMatchingFromEnd player.handCards cardId 2
    exposedCards := player.exposedCards ++
      [{ type := "peng", cards := [cardId, cardId, cardId],
         fromPlayer := st.currentPlayer }] }
  { st with players := st.players.set playerPosition player1
            currentPlayer := playerPosition }

/-- GameController.executeGangAction for the exposed ("ming") kind: remove
three copies from the back of the hand, expose a four-copy gang meld, draw
one replacement when the deck is nonempty, and make the claimant
current. -/
def executeGangAction (st : GameState) (playerPosition : Nat) (cardId : Card) :
    GameState :=
  let player := st.players.getD playerPosition default
  let player1 := { player with
    handCards := removeMatchingFromEnd player.handCards cardId 3
    exposedCards := player.exposedCards ++
      [{ type := "gang", cards := [cardId, cardId, cardId, cardId],
         fromPlayer := st.currentPlayer }] }
  let st1 := { st with players := st.players.set playerPosition player1 }
  match st1.deck with
  | [] => { st1 with currentPlayer := playerPosition }
  | newCard :: deckRest =>
    let p := st1.players.getD playerPosition default
    { st1 with
      currentPlayer := playerPosition
      deck := deckRest
      players := st1.players.set playerPosition
        { p with handCards := p.handCards ++ [newCard] } }

/-- GameController.playerChi acceptance: the only game-logic check before
executing the chi is `canChi` on the last discard — the caller's seat is
never compared with the discarder's successor.  A missing last discard
makes the JS card lookup throw, reported as a caught failure. -/
def playerChi (st : GameState) (playerPosition : Nat) (cardIds : List Card) :
    Except String GameState :=
  match st.lastDiscardedCard with
  | none => Except.error "吃牌失败"
  | some discardedCard =>
    if !canChi st playerPosition discardedCard then Except.error "无法吃牌"
    else Except.ok (executeChiAction st playerPosition cardIds)

/-- Game.endGame. -/
def endGame (st : GameState) (winner : Nat) : GameState :=
  { st with state := GState.finished, winner := some winner }

/-- One seat's entry of the Game.getGameState snapshot: the concealed hand
appears only as its count, everything else verbatim. -/
structure PlayerView where
  userId : Nat
  position : Nat
  feng : String
  handCardCount : Nat
  discardedCards : List Card
  exposedCards : List Meld
  flowerCards : List Card
  score : Nat
deriving DecidableEq

/-- The snapshot Game.getGameState returns to every viewer. -/
structure Snapshot where
  roomId : String
  state : GState
  mode : String
  currentPlayer : Nat
  dealer : Nat
  round : Nat
  players : List PlayerView
  lastDiscardedCard : Option Card
  remainingCards : Nat
  gameHistory : List HistoryEntry
deriving DecidableEq

/-- The `gameHistory.slice(-10)` of the snapshot: the last ten entries. -/
def sliceLast10 (l : List HistoryEntry) : List HistoryEntry :=
  l.drop (l.length - 10)

/-- The redaction of one seat's record. -/
def playerView (p : Player) : PlayerView :=
  { userId := p.userId
    position := p.position
    feng := p.feng
    handCardCount := p.handCards.length
    discardedCards := p.discardedCards
    exposedCards := p.exposedCards
    flowerCards := p.flowerCards
    score := p.score }

/-- Game.getGameState: every seat redacted to its view, the deck to its
remaining count, the history to its last ten entries. -/
def getGameState (st : GameState) : Snapshot :=
  { roomId := st.roomId
    state := st.state
    mode := st.mode
    currentPlayer := st.currentPlayer
    dealer := st.dealer
    round := st.round
    players := st.players.map playerView
    lastDiscardedCard := st.lastDiscardedCard
    remainingCards := st.deck.length
    gameHistory := sliceLast10 st.gameHistory }

/-- GameController.getGameState for a viewer at seat `pos`: the common
snapshot plus the viewer's own concealed hand (`myCards`) and position
(`myPosition`). -/
def controllerView (st : GameState) (pos : Nat) : Snapshot × List Card × Nat :=
  (getGameState st, (st.players.getD pos default).handCards, pos)

/-- Equality of everything a snapshot may reveal about a seat: all fields
except the concealed hand, whose count alone must agree. -/
def VisiblyEqual (p q : Player) : Prop :=
  p.userId = q.userId ∧ p.position = q.position ∧ p.feng = q.feng ∧
  p.handCards.length = q.handCards.length ∧
  p.discardedCards = q.discardedCards ∧ p.exposedCards = q.exposedCards ∧
  p.flowerCards = q.flowerCards ∧ p.score = q.score

instance (p q : Player) : Decidable (VisiblyEqual p q) := by
  unfold VisiblyEqual
  infer_instance

/-- Sort key grouping tiles by category then rank (for the spec-modelled
decomposition below). -/
def tileKey (c : Card) : Nat :=
  (match c.type with
   | .wan => 0
   | .tong => 1
   | .suo => 2
   | .zi => 3
   | .hua => 4) * 16 + c.value

/-- Ordered insertion by `tileKey`. -/
def insertTile (c : Card) : List Card → List Card
  | [] => [c]
  | d :: rest => if tileKey c ≤ tileKey d then c :: d :: rest else d :: insertTile c rest

/-- Insertion sort by `tileKey` (the spec's "sort tiles" step). -/
def sortTiles : List Card → List Card
  | [] => []
  | c :: rest => insertTile c (sortTiles rest)

/-- Modelled from the spec: the backtracking decomposition of
`WinEvaluator.canComplete` (§4.3), which the source leaves as the
`isWinningHand` TODO stub.  On a sorted multiset, consume the smallest tile
as the single pair, as a triplet, or (numeric suits only) as the start of a
run, and recurse; succeed when nothing remains with all groups and the pair
used.  Each step removes at least two tiles, so `length + 1` fuel never
runs out on the initial call. -/
def specDecomposeAux : Nat → List Card → Nat → Bool → Bool
  | 0, tiles, needGroups, pairUsed =>
    tiles.isEmpty && decide (needGroups = 0) && pairUsed
  | _ + 1, [], needGroups, pairUsed => decide (needGroups = 0) && pairUsed
  | fuel + 1, t :: rest, needGroups, pairUsed =>
    (!pairUsed && decide (t ∈ rest) &&
      specDecomposeAux fuel (removeFirst t rest) needGroups true) ||
    (decide (0 < needGroups) && decide (2 ≤ countCard t rest) &&
      specDecomposeAux fuel (removeFirst t (removeFirst t rest)) (needGroups - 1) pairUsed) ||
    (decide (0 < needGroups) && t.isNumber &&
      (let t1 : Card := { type := t.type, value := t.value + 1 }
       let t2 : Card := { type := t.type, value := t.value + 2 }
       decide (t1 ∈ rest) && decide (t2 ∈ removeFirst t1 rest) &&
        specDecomposeAux fuel (removeFirst t2 (removeFirst t1 rest)) (needGroups - 1) pairUsed))

/-- Modelled from the spec: `WinEvaluator.canComplete(candidateTiles,
existingMelds)` under the standard-pattern strategy — one pair plus
`4 − len(existingMelds)` groups. -/
def specCanComplete (candidateTiles : List Card) (existingMelds : List Meld) : Bool :=
  specDecomposeAux (candidateTiles.length + 1) (sortTiles candidateTiles)
    (4 - existingMelds.length) false

/-- Shorthand for a suit-wan tile. -/
def wt (n : Nat) : Card := { type := CardType.wan, value := n }

/-- Shorthand for an honor tile. -/
def zt (n : Nat) : Card := { type := CardType.zi, value := n }

/-- Shorthand for a flower tile. -/
def ft (n : Nat) : Card := { type := CardType.hua, value := n }

/-- A seat record with the given position and hand and otherwise fresh
fields. -/
def mkPlayer (n : Nat) (hand : List Card) : Player :=
  { userId := n, position := n, feng := "dong", handCards := hand,
    discardedCards := [], exposedCards := [], flowerCards := [],
    availableActions := [], score := 0 }

/-- A playing-phase four-seat state with the given current seat, hands and
deck. -/
def mkState (cur : Nat) (h0 h1 h2 h3 : List Card) (deck : List Card) : GameState :=
  { roomId := "room", state := GState.playing, mode := "yao_ban_san",
    currentPlayer := cur, dealer := 0, round := 1,
    players := [mkPlayer 0 h0, mkPlayer 1 h1, mkPlayer 2 h2, mkPlayer 3 h3],
    deck := deck, lastDiscardedCard := none, lastAction := none,
    gameHistory := [], winner := none }

/-- The spec's own example of a complete hand (§8 scenario 5): 1-1-1,
2-3-4, 5-6-7, 8-8-8 and the 9-9 pair of one suit. -/
def c2Hand : List Card :=
  [wt 1, wt 1, wt 1, wt 2, wt 3, wt 4, wt 5, wt 6, wt 7,
   wt 8, wt 8, wt 8, wt 9, wt 9]

/-- A state whose seat 0 holds the complete example hand. -/
def exC2 : GameState := mkState 0 c2Hand [] [] [] [wt 9]

/-- Seat 0 about to discard `wt 5` while seat 1 can chi it, seat 2 can peng
it and seat 3 can gang (and peng) it. -/
def exC3 : GameState :=
  mkState 0 [wt 5, wt 1] [wt 4, wt 6] [wt 5, wt 5] [wt 5, wt 5, wt 5]
    [wt 9, wt 9]

/-- The state after seat 0 discards `wt 5` in `exC3`. -/
def c3After : Except String GameState := playerDiscard exC3 0 (wt 5)

/-- Flower-free hands, with the next two deck cards both flowers. -/
def exC4 : GameState :=
  mkState 0 [wt 1] [wt 2, wt 3] [wt 4] [wt 5] [ft 1, ft 2, wt 9]

/-- Seat 0 has discarded `wt 5` (recorded as last discard); seat 3 — not
the successor seat 1 — holds the `wt 4`/`wt 6` pair. -/
def exC5 : GameState :=
  { mkState 0 [wt 1] [zt 1, zt 2] [zt 3] [wt 4, wt 6] [wt 9] with
    lastDiscardedCard := some (wt 5) }

/-- A playing-phase state with an exhausted deck. -/
def exC6 : GameState := mkState 0 [wt 1] [wt 2] [wt 3] [wt 4] []

/-- Base state for the snapshot pair: seat 1's hand and the deck hold
particular tiles. -/
def exC7a : GameState :=
  { mkState 0 [wt 1, wt 2] [wt 3, wt 4] [wt 5] [wt 6] [wt 7, wt 8] with
    gameHistory := [{ player := 0, action := Action.discard, cards := [wt 9] }] }

/-- The same state with seat 1's concealed tiles and the deck contents
replaced (counts unchanged). -/
def exC7b : GameState :=
  { mkState 0 [wt 1, wt 2] [zt 5, zt 6] [wt 5] [wt 6] [zt 1, zt 2] with
    gameHistory := [{ player := 0, action := Action.discard, cards := [wt 9] }] }

/-- Seat 0 to act with a nonempty deck. -/
def exC8 : GameState := mkState 0 [wt 1, wt 2] [wt 3] [wt 4] [wt 5] [wt 9]

/-- State used to exercise the rejection paths: seat 0 is to act. -/
def exC9 : GameState := mkState 0 [wt 1] [wt 2] [wt 3] [wt 4] [wt 9]

/-- Seat 1 holds two copies of `wt 5`; seat 0 has just discarded it. -/
def exC1 : GameState :=
  { mkState 1 [wt 1] [wt 5, wt 5, wt 2] [wt 3] [wt 4] [wt 9] with
    lastDiscardedCard := some (wt 5) }

/-! General list helpers used throughout the development. -/

theorem getD_of_length_le {α : Type} (l : List α) (i : Nat) (d : α)
    (h : l.length ≤ i) : l.getD i d = d := by
  induction l generalizing i with
  | nil => simp [List.getD]
  | cons x xs ih =>
    cases i with
    | zero => simp at h
    | succ n =>
      simp only [List.getD_cons_succ]
      exact ih n (by simpa using h)

theorem getD_set_self {α : Type} (l : List α) (i : Nat) (a d : α)
    (h : i < l.length) : (l.set i a).getD i d = a := by
  induction l generalizing i with
  | nil => simp at h
  | cons x xs ih =>
    cases i with
    | zero => simp
    | succ n =>
      simp only [List.set_cons_succ, List.getD_cons_succ]
      exact ih n (by simpa using h)

theorem getD_set_of_ne {α : Type} (l : List α) (i j : Nat) (a d : α)
    (h : i ≠ j) : (l.set i a).getD j d = l.getD j d := by
  induction l generalizing i j with
  | nil => simp
  | cons x xs ih =>
    cases i with
    | zero =>
      cases j with
      | zero => exact absurd rfl h
      | succ m => simp
    | succ n =>
      cases j with
      | zero => simp
      | succ m =>
        simp only [List.set_cons_succ, List.getD_cons_succ]
        exact ih n m (by omega)

theorem sum_map_set {α : Type} (f : α → Nat) (l : List α) (i : Nat) (p d : α)
    (h : i < l.length) :
    ((l.set i p).map f).sum + f (l.getD i d) = (l.map f).sum + f p := by
  induction l generalizing i with
  | nil => simp at h
  | cons x xs ih =>
    cases i with
    | zero => simp [Nat.add_comm, Nat.add_left_comm]
    | succ n =>
      simp only [List.set_cons_succ, List.map_cons, List.sum_cons,
        List.getD_cons_succ]
      have := ih n (by simpa using h)
      omega

theorem map_congr_getD {α β : Type} (f : α → β) (d : α) :
    ∀ (l1 l2 : List α), l1.length = l2.length →
      (∀ i, i < l1.length → f (l1.getD i d) = f (l2.getD i d)) →
      l1.map f = l2.map f := by
  intro l1
  induction l1 with
  | nil =>
    intro l2 h _
    cases l2 with
    | nil => rfl
    | cons b u => simp at h
  | cons a t ih =>
    intro l2 hlen hpt
    cases l2 with
    | nil => simp at hlen
    | cons b u =>
      simp only [List.map_cons, List.cons.injEq]
      refine ⟨?_, ?_⟩
      · simpa using hpt 0 (by simp)
      · exact ih u (by simpa using hlen)
          (fun i hi => by simpa using hpt (i + 1) (by simp; omega))

theorem mapWithIndex_length (f : Nat → Player → Player) :
    ∀ (j : Nat) (l : List Player), (mapWithIndex f j l).length = l.length := by
  intro j l
  induction l generalizing j with
  | nil => rfl
  | cons p ps ih => simp [mapWithIndex, ih]

theorem mapWithIndex_getD (f : Nat → Player → Player) :
    ∀ (l : List Player) (j i : Nat),
      (mapWithIndex f j l).getD i default =
        if i < l.length then f (j + i) (l.getD i default) else default := by
  intro l
  induction l with
  | nil => intro j i; simp [mapWithIndex, List.getD]
  | cons p ps ih =>
    intro j i
    cases i with
    | zero => simp [mapWithIndex]
    | succ n =>
      simp only [mapWithIndex, List.getD_cons_succ, List.length_cons]
      rw [ih (j + 1) n]
      have he : j + 1 + n = j + (n + 1) := by omega
      rw [he]
      by_cases hn : n < ps.length
      · rw [if_pos hn, if_pos (by omega)]
      · rw [if_neg hn, if_neg (by omega)]

/-! Behaviour of the stubbed win check and the claim recording. -/

theorem isWinningHand_false (handCards : List Card) (exposedCards : List Meld) :
    isWinningHand handCards exposedCards = false := by
  simp [isWinningHand]

theorem canHu_false (st : GameState) (playerPosition : Nat) (cardId : Option Card) :
    canHu st playerPosition cardId = false := by
  unfold canHu
  exact isWinningHand_false _ _

theorem checkPlayerActions_length (st : GameState) (c : Card) :
    (checkPlayerActions st c).players.length = st.players.length :=
  mapWithIndex_length _ _ _

theorem checkPlayerActions_fields (st : GameState) (c : Card) (i : Nat) :
    ((checkPlayerActions st c).players.getD i default).handCards =
      (st.players.getD i default).handCards ∧
    ((checkPlayerActions st c).players.getD i default).flowerCards =
      (st.players.getD i default).flowerCards ∧
    ((checkPlayerActions st c).players.getD i default).discardedCards =
      (st.players.getD i default).discardedCards ∧
    ((checkPlayerActions st c).players.getD i default).exposedCards =
      (st.players.getD i default).exposedCards := by
  unfold checkPlayerActions
  dsimp only
  rw [mapWithIndex_getD]
  by_cases h : i < st.players.length
  · rw [if_pos h]
    simp only [Nat.zero_add]
    by_cases h1 : i = st.currentPlayer
    · rw [if_pos h1]
      exact ⟨rfl, rfl, rfl, rfl⟩
    · rw [if_neg h1]
      by_cases h2 : (eligibleActions st c i).isEmpty
      · simp [h2]
      · simp [h2]
  · rw [if_neg h]
    rw [getD_of_length_le _ _ _ (by omega)]
    exact ⟨rfl, rfl, rfl, rfl⟩

/-! Counting helpers for the conservation claim. -/

theorem countCard_le_length (c : Card) (l : List Card) :
    countCard c l ≤ l.length :=
  List.countP_le_length _

theorem countCard_reverse (c : Card) (l : List Card) :
    countCard c l.reverse = countCard c l := by
  unfold countCard
  induction l with
  | nil => rfl
  | cons x xs ih =>
    rw [List.reverse_cons, List.countP_append, List.countP_cons, ih]
    simp [List.countP_cons]

theorem removeMatching_length (c : Card) :
    ∀ (l : List Card) (n : Nat), n ≤ countCard c l →
      (removeMatching l c n).length + n = l.length := by
  intro l
  induction l with
  | nil =>
    intro n h
    have : n = 0 := by simpa [countCard] using h
    subst this
    rfl
  | cons x xs ih =>
    intro n h
    cases n with
    | zero => rfl
    | succ m =>
      by_cases hx : x = c
      · subst hx
        have hcnt : countCard x (x :: xs) = countCard x xs + 1 := by
          simp [countCard, List.countP_cons]
        rw [hcnt] at h
        have hrw : removeMatching (x :: xs) x (m + 1) = removeMatching xs x m := by
          simp [removeMatching]
        rw [hrw]
        have := ih m (by omega)
        simp only [List.length_cons]
        omega
      · have hcnt : countCard c (x :: xs) = countCard c xs := by
          simp [countCard, List.countP_cons, hx]
        rw [hcnt] at h
        have hrw : removeMatching (x :: xs) c (m + 1) =
            x :: removeMatching xs c (m + 1) := by
          simp [removeMatching, hx]
        rw [hrw]
        have := ih (m + 1) h
        simp only [List.length_cons]
        omega

theorem removeMatchingFromEnd_length (hand : List Card) (c : Card) (n : Nat)
    (h : n ≤ countCard c hand) :
    (removeMatchingFromEnd hand c n).length + n = hand.length := by
  unfold removeMatchingFromEnd
  rw [List.length_reverse]
  have := removeMatching_length c hand.reverse n
    (by rwa [countCard_reverse])
  simpa using this

theorem playerTiles_peng (p : Player) (cardId : Card) (cur : Nat)
    (h : 2 ≤ countCard cardId p.handCards) :
    playerTiles
      { p with
        handCards := removeMatchingFromEnd p.handCards cardId 2
        exposedCards := p.exposedCards ++
          [{ type := "peng", cards := [cardId, cardId, cardId],
             fromPlayer := cur }] } = playerTiles p + 1 := by
  have hlen2 := removeMatchingFromEnd_length p.handCards cardId 2 h
  have hple := countCard_le_length cardId p.handCards
  unfold playerTiles
  dsimp only
  rw [List.map_append, List.sum_append]
  simp only [List.map_cons, List.sum_cons, List.map_nil, List.sum_nil,
    List.length_cons, List.length_nil]
  omega

/-- C1: the conservation claim fails at peng: `executePengAction` removes
only two copies from the claimant's hand while exposing a three-copy meld
and leaving the claimed tile in the discarder's discard pile, so the total
tile count grows by one instead of being preserved. -/
theorem c1_peng_breaks_tile_conservation (st : GameState) (pos : Nat) (cardId : Card)
    (hpos : pos < st.players.length)
    (hcnt : 2 ≤ countCard cardId (st.players.getD pos default).handCards) :
    totalTiles (executePengAction st pos cardId) = totalTiles st + 1 := by
  unfold executePengAction totalTiles
  dsimp only
  have hsum := sum_map_set playerTiles st.players pos
    { st.players.getD pos default with
      handCards := removeMatchingFromEnd (st.players.getD pos default).handCards cardId 2
      exposedCards := (st.players.getD pos default).exposedCards ++
        [{ type := "peng", cards := [cardId, cardId, cardId],
           fromPlayer := st.currentPlayer }] } default hpos
  have hP := playerTiles_peng (st.players.getD pos default) cardId st.currentPlayer hcnt
  dsimp only at hsum
  omega

/-- C1 witness: a concrete peng on the last discard takes the total from
ten tiles to eleven. -/
theorem c1_witness :
    totalTiles (executePengAction exC1 1 (wt 5)) = totalTiles exC1 + 1 :=
  c1_peng_breaks_tile_conservation exC1 1 (wt 5) (by decide) (by decide)

/-- C2: the code's win check is an unfilled stub.  The spec's own example
hand (one suit's 1-1-1, 2-3-4, 5-6-7, 8-8-8 plus the 9-9 pair) decomposes
per the spec-modelled `specCanComplete`, yet `isWinningHand` — and with it
`canHu` — rejects it; indeed the check rejects every input. -/
theorem c2_win_check_is_stub :
    (∀ handCards exposedCards, isWinningHand handCards exposedCards = false) ∧
    c2Hand.length = 14 ∧
    specCanComplete c2Hand [] = true ∧
    specCanComplete (c2Hand.drop 1) [] = false ∧
    isWinningHand c2Hand [] = false ∧
    canHu exC2 0 none = false := by
  refine ⟨isWinningHand_false, ?_⟩
  decide

/-- C6 counterexample: with an exhausted deck and no winner, advancing the
turn leaves the round in the playing state with no winner recorded — it
does not reach the finished state. -/
theorem c6_counterexample :
    exC6.deck = [] ∧ exC6.state = GState.playing ∧ exC6.winner = none ∧
    (nextPlayer exC6).state = GState.playing ∧
    (nextPlayer exC6).state ≠ GState.finished ∧
    (nextPlayer exC6).winner = none ∧
    (nextPlayer exC6).currentPlayer = 1 := by
  decide

/-- C6 (amended): when the deck is empty, `nextPlayer` only advances
`currentPlayer` to `(current + 1) % 4`; the state stays exactly as it was
otherwise — in particular it remains `playing` and no wall-exhaustion
outcome or winner is recorded, because the code has no such transition. -/
theorem c6_empty_deck_only_advances_seat (st : GameState) (h : st.deck = []) :
    nextPlayer st = { st with currentPlayer := (st.currentPlayer + 1) % 4 } := by
  unfold nextPlayer
  rw [h]

/-- C6 witness. -/
theorem c6_witness :
    nextPlayer exC6 = { exC6 with currentPlayer := 1 } := by
  have := c6_empty_deck_only_advances_seat exC6 (by decide)
  simpa using this

/-- C9: a discard in a non-playing state, out of turn, or of a tile the
seat does not hold is rejected with an error message, and the state the
controller keeps (nothing is saved on a throw) is exactly the input
state. -/
theorem c9_invalid_discard_rejected_without_mutation
    (st : GameState) (pos : Nat) (cardId : Card)
    (h : st.state ≠ GState.playing ∨ st.currentPlayer ≠ pos ∨
      cardId ∉ (st.players.getD pos default).handCards) :
    (playerDiscardEndpoint st pos cardId).1 = st ∧
      ∃ e, (playerDiscardEndpoint st pos cardId).2 = some e := by
  unfold playerDiscardEndpoint playerDiscard
  by_cases h1 : st.state = GState.playing
  · by_cases h2 : st.currentPlayer = pos
    · have h3 : cardId ∉ (st.players.getD pos default).handCards := by
        rcases h with h | h | h
        · exact absurd h1 h
        · exact absurd h2 h
        · exact h
      have h3' : cardId ∉ (st.players[pos]?.getD default).handCards := by
        simpa [List.getD] using h3
      simp [h1, h2, h3']
    · simp [h1, h2]
  · simp [h1]

/-- C9 witness: an out-of-turn discard attempt by seat 1. -/
theorem c9_witness :
    (playerDiscardEndpoint exC9 1 (wt 2)).1 = exC9 ∧
      ∃ e, (playerDiscardEndpoint exC9 1 (wt 2)).2 = some e :=
  c9_invalid_discard_rejected_without_mutation exC9 1 (wt 2)
    (Or.inr (Or.inl (by decide)))

/-- C10: for every card of the 144-tile population, rebuilding it from its
id string or from its JSON form yields the same card, and the id depends
only on the kind, so all physical copies of a kind share one id. -/
theorem c10_card_identity_round_trip :
    (∀ c ∈ initialDeck, getCardById c.generateId = some c ∧
      Card.fromJSON c.toJSON = c) ∧
    (∀ c1 c2 : Card, c1.type = c2.type → c1.value = c2.value →
      c1.generateId = c2.generateId) := by
  constructor
  · decide
  · intro c1 c2 ht hv
    cases c1
    cases c2
    cases ht
    cases hv
    rfl

/-- C10 witness: the round trip at the first tile of the population. -/
theorem c10_witness :
    getCardById (Card.generateId (wt 1)) = some (wt 1) ∧
      Card.fromJSON (Card.toJSON (wt 1)) = wt 1 :=
  c10_card_identity_round_trip.1 (wt 1) (by decide)

/-- C3: no claim arbitration exists.  `canHu` can never fire (the win
check is a stub), and on a discard that leaves several seats eligible the
engine merely records each seat's action list — keeping peng alongside the
higher-priority gang — and then advances the turn anyway, letting the next
seat draw while the claims are still pending. -/
theorem c3_no_claim_arbitration :
    (∀ st playerPosition cardId, canHu st playerPosition cardId = false) ∧
    c3After.toOption.map (fun s => (s.players.getD 1 default).availableActions) =
      some [Action.chi] ∧
    c3After.toOption.map (fun s => (s.players.getD 2 default).availableActions) =
      some [Action.peng] ∧
    c3After.toOption.map (fun s => (s.players.getD 3 default).availableActions) =
      some [Action.gang, Action.peng] ∧
    c3After.toOption.map (fun s => s.currentPlayer) = some 1 ∧
    c3After.toOption.map (fun s => s.deck.length) = some 1 ∧
    c3After.toOption.map (fun s => s.state) = some GState.playing := by
  refine ⟨canHu_false, ?_⟩
  decide

/-! The dealing-phase flower sweep: measure lemmas and the loop
postcondition. -/

theorem countFlowers_nonflowers (l : List Card) :
    countFlowers (l.filter (fun c => !c.isFlower)) = 0 := by
  induction l with
  | nil => rfl
  | cons x xs ih =>
    by_cases hx : x.isFlower <;>
      simp [countFlowers, List.filter_cons, hx, List.countP_cons] at *

theorem countFlowers_take_drop (n : Nat) (l : List Card) :
    countFlowers (l.take n) + countFlowers (l.drop n) = countFlowers l := by
  unfold countFlowers
  rw [← List.countP_append, List.take_append_drop]

theorem default_player_hand : (default : Player).handCards = [] := rfl

theorem sweepPlayer_snd_false (st : GameState) (idx : Nat)
    (h : (sweepPlayer st idx).2 = false) :
    (sweepPlayer st idx).1 = st ∧
      (st.players.getD idx default).handCards.filter (fun c => c.isFlower) = [] := by
  unfold sweepPlayer at h ⊢
  dsimp only at h ⊢
  by_cases h0 : 0 <
      ((st.players.getD idx default).handCards.filter (fun c => c.isFlower)).length
  · rw [if_pos h0] at h
    simp at h
  · rw [if_neg h0]
    refine ⟨rfl, ?_⟩
    have hz : ((st.players.getD idx default).handCards.filter
        (fun c => c.isFlower)).length = 0 := by omega
    exact List.length_eq_zero.mp hz

theorem sweepPlayer_snd_true (st : GameState) (idx : Nat)
    (h : (sweepPlayer st idx).2 = true) :
    0 < countFlowers (st.players.getD idx default).handCards := by
  unfold sweepPlayer at h
  dsimp only at h
  by_cases h0 : 0 <
      ((st.players.getD idx default).handCards.filter (fun c => c.isFlower)).length
  · unfold countFlowers
    rw [List.countP_eq_length_filter]
    exact h0
  · rw [if_neg h0] at h
    simp at h

theorem sweepPlayer_measure (st : GameState) (idx : Nat) :
    flowerMeasure (sweepPlayer st idx).1 +
      countFlowers (st.players.getD idx default).handCards = flowerMeasure st := by
  rcases hev : st.players.getD idx default with ⟨u, q, fg, hand, disc, melds, flow, av, sc⟩
  unfold sweepPlayer
  rw [hev]
  dsimp only [drawCards]
  by_cases h0 : 0 < (hand.filter (fun c => c.isFlower)).length
  · rw [if_pos h0]
    have hidx : idx < st.players.length := by
      by_contra hge
      have hd : st.players.getD idx default = default :=
        getD_of_length_le _ _ _ (by omega)
      rw [hev] at hd
      have h5 := congrArg Player.handCards hd
      rw [default_player_hand] at h5
      have h6 : hand = [] := h5
      rw [h6] at h0
      simp at h0
    unfold flowerMeasure
    dsimp only
    have hsum := sum_map_set (fun p => countFlowers p.handCards) st.players idx
      ⟨u, q, fg,
        hand.filter (fun c => !c.isFlower) ++
          st.deck.take (hand.filter (fun c => c.isFlower)).length,
        disc, melds,
        flow ++ hand.filter (fun c => c.isFlower), av, sc⟩ default hidx
    rw [hev] at hsum
    dsimp only at hsum
    have hsplit := countFlowers_take_drop
      (hand.filter (fun c => c.isFlower)).length st.deck
    have happ : countFlowers (hand.filter (fun c => !c.isFlower) ++
        st.deck.take (hand.filter (fun c => c.isFlower)).length) =
        countFlowers (hand.filter (fun c => !c.isFlower)) +
          countFlowers (st.deck.take (hand.filter (fun c => c.isFlower)).length) := by
      unfold countFlowers
      rw [List.countP_append]
    have hnf := countFlowers_nonflowers hand
    have hhand : countFlowers hand = (hand.filter (fun c => c.isFlower)).length := by
      unfold countFlowers
      rw [List.countP_eq_length_filter]
    rw [happ] at hsum
    omega
  · rw [if_neg h0]
    dsimp only
    have hz : countFlowers hand = 0 := by
      unfold countFlowers
      rw [List.countP_eq_length_filter]
      omega
    omega

theorem sweepPlayer_measure_le (st : GameState) (idx : Nat) :
    flowerMeasure (sweepPlayer st idx).1 ≤ flowerMeasure st := by
  have := sweepPlayer_measure st idx
  omega

theorem sweepPlayer_measure_lt (st : GameState) (idx : Nat)
    (h : (sweepPlayer st idx).2 = true) :
    flowerMeasure (sweepPlayer st idx).1 < flowerMeasure st := by
  have h1 := sweepPlayer_measure st idx
  have h2 := sweepPlayer_snd_true st idx h
  omega

theorem sweepPass_eq (st : GameState) :
    sweepPass st =
      ((sweepPlayer (sweepPlayer (sweepPlayer (sweepPlayer st ((st.dealer + 0) % 4)).1
          ((st.dealer + 1) % 4)).1 ((st.dealer + 2) % 4)).1 ((st.dealer + 3) % 4)).1,
       (((sweepPlayer st ((st.dealer + 0) % 4)).2 ||
         (sweepPlayer (sweepPlayer st ((st.dealer + 0) % 4)).1 ((st.dealer + 1) % 4)).2) ||
           (sweepPlayer (sweepPlayer (sweepPlayer st ((st.dealer + 0) % 4)).1
               ((st.dealer + 1) % 4)).1 ((st.dealer + 2) % 4)).2) ||
             (sweepPlayer (sweepPlayer (sweepPlayer (sweepPlayer st ((st.dealer + 0) % 4)).1
               ((st.dealer + 1) % 4)).1 ((st.dealer + 2) % 4)).1 ((st.dealer + 3) % 4)).2) := rfl

theorem sweepPass_false (st : GameState) (h : (sweepPass st).2 = false) :
    (sweepPass st).1 = st ∧
      ∀ i, i < 4 →
        (st.players.getD i default).handCards.filter (fun c => c.isFlower) = [] := by
  rw [sweepPass_eq] at h ⊢
  simp only [Bool.or_eq_false_iff] at h
  obtain ⟨⟨⟨h1, h2⟩, h3⟩, h4⟩ := h
  obtain ⟨e1, f1⟩ := sweepPlayer_snd_false st _ h1
  rw [e1] at h2 h3 h4 ⊢
  obtain ⟨e2, f2⟩ := sweepPlayer_snd_false st _ h2
  rw [e2] at h3 h4 ⊢
  obtain ⟨e3, f3⟩ := sweepPlayer_snd_false st _ h3
  rw [e3] at h4 ⊢
  obtain ⟨e4, f4⟩ := sweepPlayer_snd_false st _ h4
  refine ⟨e4, ?_⟩
  intro i hi
  have hcov : (st.dealer + 0) % 4 = i ∨ (st.dealer + 1) % 4 = i ∨
      (st.dealer + 2) % 4 = i ∨ (st.dealer + 3) % 4 = i := by omega
  rcases hcov with hc | hc | hc | hc <;> rw [← hc] <;> assumption

theorem sweepPass_measure_lt (st : GameState) (h : (sweepPass st).2 = true) :
    flowerMeasure (sweepPass st).1 < flowerMeasure st := by
  rw [sweepPass_eq] at h ⊢
  dsimp only
  simp only [Bool.or_eq_true] at h
  have l1 := sweepPlayer_measure_le st ((st.dealer + 0) % 4)
  have l2 := sweepPlayer_measure_le (sweepPlayer st ((st.dealer + 0) % 4)).1
    ((st.dealer + 1) % 4)
  have l3 := sweepPlayer_measure_le
    (sweepPlayer (sweepPlayer st ((st.dealer + 0) % 4)).1 ((st.dealer + 1) % 4)).1
    ((st.dealer + 2) % 4)
  have l4 := sweepPlayer_measure_le
    (sweepPlayer (sweepPlayer (sweepPlayer st ((st.dealer + 0) % 4)).1
      ((st.dealer + 1) % 4)).1 ((st.dealer + 2) % 4)).1 ((st.dealer + 3) % 4)
  rcases h with ((h | h) | h) | h
  · have := sweepPlayer_measure_lt _ _ h
    omega
  · have := sweepPlayer_measure_lt _ _ h
    omega
  · have := sweepPlayer_measure_lt _ _ h
    omega
  · have := sweepPlayer_measure_lt _ _ h
    omega

theorem sweepLoop_noFlowers :
    ∀ (fuel : Nat) (st : GameState), flowerMeasure st < fuel →
      ∀ i, i < 4 →
        ((sweepLoop fuel st).players.getD i default).handCards.filter
          (fun c => c.isFlower) = [] := by
  intro fuel
  induction fuel with
  | zero => intro st h; omega
  | succ n ih =>
    intro st h i hi
    unfold sweepLoop
    dsimp only
    by_cases hp : (sweepPass st).2 = true
    · rw [if_pos hp]
      exact ih (sweepPass st).1 (by have := sweepPass_measure_lt st hp; omega) i hi
    · rw [if_neg hp]
      have hp' : (sweepPass st).2 = false := by simpa using hp
      obtain ⟨e, hf⟩ := sweepPass_false st hp'
      rw [e]
      exact hf i hi

theorem sweepPass_of_sweepLoop :
    ∀ (fuel : Nat) (st : GameState), flowerMeasure st < fuel →
      (sweepPass (sweepLoop fuel st)).2 = false := by
  intro fuel
  induction fuel with
  | zero => intro st h; omega
  | succ n ih =>
    intro st h
    unfold sweepLoop
    dsimp only
    by_cases hp : (sweepPass st).2 = true
    · rw [if_pos hp]
      exact ih (sweepPass st).1 (by have := sweepPass_measure_lt st hp; omega)
    · rw [if_neg hp]
      have hp' : (sweepPass st).2 = false := by simpa using hp
      obtain ⟨e, _⟩ := sweepPass_false st hp'
      rw [e]
      exact hp'

/-- Fuel sufficiency: after `handleFlowerCards` one further pass finds no
flowers, so the fuelled loop computes exactly the JS
`while (hasFlowers)` loop's result. -/
theorem sweepLoop_stable (st : GameState) :
    (sweepPass (handleFlowerCards st)).2 = false :=
  sweepPass_of_sweepLoop (flowerMeasure st + 1) st (by omega)

/-- C4 counterexample: the per-turn sweep of `nextPlayer` does not recheck
the replacement tile.  With the next two deck cards both flowers, seat 1's
hand is flower-free before its draw, the drawn flower is swept out, yet the
hand then contains the flower replacement. -/
theorem c4_counterexample :
    (exC4.players.getD 1 default).handCards.filter (fun c => c.isFlower) = [] ∧
    ((nextPlayer exC4).players.getD 1 default).flowerCards = [ft 1] ∧
    ((nextPlayer exC4).players.getD 1 default).handCards.filter
      (fun c => c.isFlower) = [ft 2] := by
  decide

/-- C4 (amended): after the dealing-phase sweep (`handleFlowerCards`, hence
also after `dealCards`) no seat's concealed hand contains a flower, even
when replacements are themselves flowers; the per-turn sweep in
`nextPlayer` moves the drawn flower to the flower pile and appends the
replacement to the hand without rechecking it, so the hand stays
flower-free only when that replacement is not itself a flower. -/
theorem c4_flower_sweep_amended :
    (∀ (st : GameState) (i : Nat), i < 4 →
      ((handleFlowerCards st).players.getD i default).handCards.filter
        (fun c => c.isFlower) = []) ∧
    (∀ (st : GameState) (i : Nat), i < 4 →
      ((dealCards st).players.getD i default).handCards.filter
        (fun c => c.isFlower) = []) ∧
    (∀ (st : GameState) (d : Card) (ds : List Card), st.players.length = 4 →
      st.deck = d :: ds → d.isFlower = true →
      ((nextPlayer st).players.getD ((st.currentPlayer + 1) % 4) default).flowerCards =
        (st.players.getD ((st.currentPlayer + 1) % 4) default).flowerCards ++ [d]) ∧
    (∀ (st : GameState) (d s : Card) (ds : List Card), st.players.length = 4 →
      st.deck = d :: s :: ds → d.isFlower = true →
      ((nextPlayer st).players.getD ((st.currentPlayer + 1) % 4) default).handCards =
        (st.players.getD ((st.currentPlayer + 1) % 4) default).handCards ++ [s]) := by
  have main : ∀ (st : GameState) (i : Nat), i < 4 →
      ((handleFlowerCards st).players.getD i default).handCards.filter
        (fun c => c.isFlower) = [] := by
    intro st i hi
    unfold handleFlowerCards
    exact sweepLoop_noFlowers (flowerMeasure st + 1) st (by omega) i hi
  refine ⟨main, ?_, ?_, ?_⟩
  · intro st i hi
    unfold dealCards
    dsimp only
    exact main _ i hi
  · intro st d ds hlen hdeck hflower
    unfold nextPlayer
    rw [hdeck]
    dsimp only
    rw [if_pos hflower]
    cases ds with
    | nil =>
      dsimp only
      rw [getD_set_self _ _ _ _ (by omega)]
    | cons s ds2 =>
      dsimp only
      rw [getD_set_self _ _ _ _ (by omega)]
  · intro st d s ds hlen hdeck hflower
    unfold nextPlayer
    rw [hdeck]
    dsimp only
    rw [if_pos hflower]
    dsimp only
    rw [getD_set_self _ _ _ _ (by omega)]

/-- C4 witness: the amended facts at concrete inputs — the dealing sweep
leaves seat 0 flower-free, and the drawn flower of `exC4` lands in seat 1's
flower pile. -/
theorem c4_witness :
    ((handleFlowerCards exC4).players.getD 0 default).handCards.filter
      (fun c => c.isFlower) = [] ∧
    ((nextPlayer exC4).players.getD 1 default).flowerCards =
      (exC4.players.getD 1 default).flowerCards ++ [ft 1] :=
  ⟨c4_flower_sweep_amended.1 exC4 0 (by decide),
   c4_flower_sweep_amended.2.2.1 exC4 (ft 1) [ft 2, wt 9] (by decide) rfl (by decide)⟩

/-! Chi gating: what the availability computation guarantees, and what the
acceptance endpoint fails to check. -/

theorem anyChiPair_sublist (card : Card) :
    ∀ l, anyChiPair card l = true →
      ∃ c1 c2, [c1, c2].Sublist l ∧ card.canFormSequence c1 c2 = true := by
  intro l
  induction l with
  | nil => intro h; cases h
  | cons c rest ih =>
    intro h
    rw [anyChiPair, Bool.or_eq_true] at h
    rcases h with h | h
    · obtain ⟨c2, hc2, hseq⟩ := List.any_eq_true.mp h
      exact ⟨c, c2, (List.singleton_sublist.mpr hc2).cons₂ c, hseq⟩
    · obtain ⟨c1, c2, hsub, hseq⟩ := ih h
      exact ⟨c1, c2, hsub.cons c, hseq⟩

theorem canChi_not_number (st : GameState) (idx : Nat) (cardId : Card)
    (h : cardId.isNumber = false) : canChi st idx cardId = false := by
  simp [canChi, h]

theorem canChi_true_parts (st : GameState) (idx : Nat) (cardId : Card)
    (h : canChi st idx cardId = true) :
    cardId.isNumber = true ∧
      anyChiPair cardId (st.players.getD idx default).handCards = true := by
  unfold canChi at h
  by_cases hn : cardId.isNumber = true
  · rw [hn] at h
    simp at h
    exact ⟨hn, by simpa [List.getD] using h⟩
  · have hn' : cardId.isNumber = false := by simpa using hn
    rw [hn'] at h
    simp at h

theorem chi_mem_eligible (st : GameState) (cardId : Card) (idx : Nat)
    (h : Action.chi ∈ eligibleActions st cardId idx) :
    idx = (st.currentPlayer + 1) % 4 ∧ canChi st idx cardId = true := by
  unfold eligibleActions at h
  rw [List.mem_append, List.mem_append, List.mem_append] at h
  rcases h with ((h | h) | h) | h
  · exfalso
    revert h
    by_cases hc : canHu st idx (some cardId) = true <;> simp [hc]
  · exfalso
    revert h
    by_cases hc : canGang st idx cardId = true <;> simp [hc]
  · exfalso
    revert h
    by_cases hc : canPeng st idx cardId = true <;> simp [hc]
  · by_cases hc : (decide (idx = (st.currentPlayer + 1) % 4) &&
        canChi st idx cardId) = true
    · rw [Bool.and_eq_true] at hc
      exact ⟨of_decide_eq_true hc.1, hc.2⟩
    · exfalso
      revert h
      simp [hc]

/-- C5 (amended): the availability computation offers chi only to the seat
after the discarder, only when two concealed cards complete a run with the
discard, and never on a non-numeric (honor or flower) discard; but the chi
endpoint (`GameController.playerChi`) accepts a chi from any seat whose
hand passes `canChi` — the next-seat restriction is not enforced on
acceptance. -/
theorem c5_chi_gating_and_lax_acceptance :
    (∀ (st : GameState) (cardId : Card) (idx : Nat),
      Action.chi ∈ eligibleActions st cardId idx →
        idx = (st.currentPlayer + 1) % 4 ∧ cardId.isNumber = true ∧
        ∃ c1 c2, [c1, c2].Sublist (st.players.getD idx default).handCards ∧
          cardId.canFormSequence c1 c2 = true) ∧
    (∀ (st : GameState) (idx : Nat) (cardId : Card), cardId.isNumber = false →
      canChi st idx cardId = false ∧ Action.chi ∉ eligibleActions st cardId idx) ∧
    (∀ (st : GameState) (pos : Nat) (cardIds : List Card) (d : Card),
      st.lastDiscardedCard = some d → canChi st pos d = true →
      playerChi st pos cardIds = Except.ok (executeChiAction st pos cardIds)) := by
  refine ⟨?_, ?_, ?_⟩
  · intro st cardId idx h
    obtain ⟨hidx, hchi⟩ := chi_mem_eligible st cardId idx h
    obtain ⟨hnum, hpair⟩ := canChi_true_parts st idx cardId hchi
    obtain ⟨c1, c2, hsub, hseq⟩ := anyChiPair_sublist cardId _ hpair
    exact ⟨hidx, hnum, c1, c2, hsub, hseq⟩
  · intro st idx cardId h
    refine ⟨canChi_not_number st idx cardId h, ?_⟩
    intro hmem
    obtain ⟨_, hchi⟩ := chi_mem_eligible st cardId idx hmem
    rw [canChi_not_number st idx cardId h] at hchi
    cases hchi
  · intro st pos cardIds d hlast hchi
    unfold playerChi
    rw [hlast]
    simp [hchi]

/-- C5 counterexample: in `exC5` the last discard is seat 0's `wt 5`, the
successor seat is 1, chi is not offered to seat 3 — yet the endpoint
accepts seat 3's chi. -/
theorem c5_counterexample :
    exC5.currentPlayer = 0 ∧ (3 : Nat) ≠ (exC5.currentPlayer + 1) % 4 ∧
    Action.chi ∉ eligibleActions exC5 (wt 5) 3 ∧
    (playerChi exC5 3 [wt 4, wt 5, wt 6]).toOption.isSome = true := by
  decide

/-- C5 witness: the gating facts at a concrete honor discard and the lax
acceptance at `exC5`. -/
theorem c5_witness :
    (canChi exC5 1 (zt 5) = false ∧ Action.chi ∉ eligibleActions exC5 (zt 5) 1) ∧
    playerChi exC5 3 [wt 4, wt 5, wt 6] =
      Except.ok (executeChiAction exC5 3 [wt 4, wt 5, wt 6]) :=
  ⟨c5_chi_gating_and_lax_acceptance.2.1 exC5 1 (zt 5) (by decide),
   c5_chi_gating_and_lax_acceptance.2.2 exC5 3 [wt 4, wt 5, wt 6] (wt 5) rfl (by decide)⟩

/-- C7: the per-seat snapshot is a function of the visible data only — two
states equal in everything except other seats' concealed tiles (counts
fixed) and the undrawn deck's contents (size fixed) produce identical
responses for the viewer, own hand included. -/
theorem c7_snapshot_noninterference (st1 st2 : GameState) (v : Nat)
    (hroom : st1.roomId = st2.roomId) (hstate : st1.state = st2.state)
    (hmode : st1.mode = st2.mode) (hcur : st1.currentPlayer = st2.currentPlayer)
    (hdeal : st1.dealer = st2.dealer) (hround : st1.round = st2.round)
    (hlast : st1.lastDiscardedCard = st2.lastDiscardedCard)
    (hhist : st1.gameHistory = st2.gameHistory)
    (hdeck : st1.deck.length = st2.deck.length)
    (hlen : st1.players.length = st2.players.length)
    (hvis : ∀ i, i < st1.players.length →
      VisiblyEqual (st1.players.getD i default) (st2.players.getD i default))
    (hown : (st1.players.getD v default).handCards =
      (st2.players.getD v default).handCards) :
    controllerView st1 v = controllerView st2 v := by
  unfold controllerView getGameState
  rw [hown]
  have hmap : st1.players.map playerView = st2.players.map playerView := by
    apply map_congr_getD playerView default st1.players st2.players hlen
    intro i hi
    obtain ⟨h1, h2, h3, h4, h5, h6, h7, h8⟩ := hvis i hi
    unfold playerView
    rw [h1, h2, h3, h4, h5, h6, h7, h8]
  rw [hroom, hstate, hmode, hcur, hdeal, hround, hlast, hhist, hdeck, hmap]

/-- C7 witness: two concrete states differing only in seat 1's concealed
tiles and in the deck contents give the viewer at seat 0 identical
responses. -/
theorem c7_witness : controllerView exC7a 0 = controllerView exC7b 0 :=
  c7_snapshot_noninterference exC7a exC7b 0 rfl rfl rfl rfl rfl rfl rfl rfl
    (by decide) (by decide) (by decide) (by decide)

/-! Projection facts about the claim-recording step, used for the turn
advance claim. -/

theorem checkPlayerActions_deck (st : GameState) (c : Card) :
    (checkPlayerActions st c).deck = st.deck := rfl

theorem checkPlayerActions_cur (st : GameState) (c : Card) :
    (checkPlayerActions st c).currentPlayer = st.currentPlayer := rfl

theorem checkPlayerActions_state (st : GameState) (c : Card) :
    (checkPlayerActions st c).state = st.state := rfl

/-- C8: a valid discard with no claim taken always advances the seat to
`(pos + 1) % 4`; with a nonempty deck the new seat draws the top card into
its hand (when it is not a flower) or into its flower pile (when it is),
and the game stays in the playing state awaiting that seat's discard. -/
theorem c8_turn_advance (st : GameState) (pos : Nat) (cardId d : Card)
    (ds : List Card)
    (hlen : st.players.length = 4) (_hpos : pos < 4)
    (hstate : st.state = GState.playing) (hturn : st.currentPlayer = pos)
    (hcard : cardId ∈ (st.players.getD pos default).handCards)
    (hdeck : st.deck = d :: ds) :
    ∃ st', playerDiscard st pos cardId = Except.ok st' ∧
      st'.currentPlayer = (pos + 1) % 4 ∧
      st'.state = GState.playing ∧
      (d.isFlower = false →
        (st'.players.getD ((pos + 1) % 4) default).handCards =
          (st.players.getD ((pos + 1) % 4) default).handCards ++ [d] ∧
        st'.deck = ds ∧
        (st'.players.getD ((pos + 1) % 4) default).flowerCards =
          (st.players.getD ((pos + 1) % 4) default).flowerCards) ∧
      (d.isFlower = true →
        (st'.players.getD ((pos + 1) % 4) default).flowerCards =
          (st.players.getD ((pos + 1) % 4) default).flowerCards ++ [d]) := by
  have hne : (pos + 1) % 4 ≠ pos := by omega
  have hlt4 : (pos + 1) % 4 < 4 := by omega
  have key : ∀ (st1 : GameState), st1.state = GState.playing →
      st1.currentPlayer = pos → st1.deck = d :: ds → st1.players.length = 4 →
      (st1.players.getD ((pos + 1) % 4) default).handCards =
        (st.players.getD ((pos + 1) % 4) default).handCards →
      (st1.players.getD ((pos + 1) % 4) default).flowerCards =
        (st.players.getD ((pos + 1) % 4) default).flowerCards →
      (nextPlayer st1).currentPlayer = (pos + 1) % 4 ∧
      (nextPlayer st1).state = GState.playing ∧
      (d.isFlower = false →
        ((nextPlayer st1).players.getD ((pos + 1) % 4) default).handCards =
          (st.players.getD ((pos + 1) % 4) default).handCards ++ [d] ∧
        (nextPlayer st1).deck = ds ∧
        ((nextPlayer st1).players.getD ((pos + 1) % 4) default).flowerCards =
          (st.players.getD ((pos + 1) % 4) default).flowerCards) ∧
      (d.isFlower = true →
        ((nextPlayer st1).players.getD ((pos + 1) % 4) default).flowerCards =
          (st.players.getD ((pos + 1) % 4) default).flowerCards ++ [d]) := by
    intro st1 e1 e2 e3 e4 e5 e6
    unfold nextPlayer
    rw [e3, e2]
    dsimp only
    by_cases hf : d.isFlower = true
    · rw [if_pos hf]
      cases ds with
      | nil =>
        dsimp only
        refine ⟨rfl, e1, ?_, ?_⟩
        · intro hd
          rw [hf] at hd
          cases hd
        · intro _
          rw [getD_set_self _ _ _ _ (by rw [e4]; exact hlt4)]
          dsimp only
          rw [e6]
      | cons s ds2 =>
        dsimp only
        refine ⟨rfl, e1, ?_, ?_⟩
        · intro hd
          rw [hf] at hd
          cases hd
        · intro _
          rw [getD_set_self _ _ _ _ (by rw [e4]; exact hlt4)]
          dsimp only
          rw [e6]
    · rw [if_neg hf]
      dsimp only
      refine ⟨rfl, e1, ?_, ?_⟩
      · intro _
        rw [getD_set_self _ _ _ _ (by rw [e4]; exact hlt4)]
        dsimp only
        rw [e5, e6]
        exact ⟨rfl, rfl, rfl⟩
      · intro hd
        exact absurd hd hf
  unfold playerDiscard
  rw [if_neg (show ¬(st.state ≠ GState.playing) from fun hn => hn hstate)]
  rw [if_neg (show ¬(st.currentPlayer ≠ pos) from fun hn => hn hturn)]
  dsimp only
  rw [if_neg (show ¬(cardId ∉ (st.players.getD pos default).handCards) from
    fun hn => hn hcard)]
  refine ⟨_, rfl, ?_⟩
  apply key
  · rw [checkPlayerActions_state]
    exact hstate
  · rw [checkPlayerActions_cur]
    exact hturn
  · rw [checkPlayerActions_deck]
    exact hdeck
  · rw [checkPlayerActions_length]
    dsimp only
    rw [List.length_set]
    exact hlen
  · rw [(checkPlayerActions_fields _ _ _).1]
    dsimp only
    rw [getD_set_of_ne _ _ _ _ _ (Ne.symm hne)]
  · rw [(checkPlayerActions_fields _ _ _).2.1]
    dsimp only
    rw [getD_set_of_ne _ _ _ _ _ (Ne.symm hne)]

/-- C8 witness: seat 0 discards `wt 1` in `exC8`; seat 1 becomes current
and draws the deck's `wt 9` into its hand. -/
theorem c8_witness :
    ∃ st', playerDiscard exC8 0 (wt 1) = Except.ok st' ∧
      st'.currentPlayer = (0 + 1) % 4 ∧
      st'.state = GState.playing ∧
      ((wt 9).isFlower = false →
        (st'.players.getD ((0 + 1) % 4) default).handCards =
          (exC8.players.getD ((0 + 1) % 4) default).handCards ++ [wt 9] ∧
        st'.deck = [] ∧
        (st'.players.getD ((0 + 1) % 4) default).flowerCards =
          (exC8.players.getD ((0 + 1) % 4) default).flowerCards) ∧
      ((wt 9).isFlower = true →
        (st'.players.getD ((0 + 1) % 4) default).flowerCards =
          (exC8.players.getD ((0 + 1) % 4) default).flowerCards ++ [wt 9]) :=
  c8_turn_advance exC8 0 (wt 1) (wt 9) [] (by decide) (by decide) rfl rfl
    (by decide) rfl

end NinghaiMJ
